import Mathlib

/-!
Verification development for the ml-finance directional forecaster.

The repository ships a FastAPI backend that extracts return/volatility
features from daily closes, trains a per-ticker LightGBM classifier on
demand, caches it, and serves up/down predictions, plus a React frontend.
The backend's Python source is not part of the checked-in sources here
(only the frontend, the README and the run script are), so the core
components (Feature Extractor, Label Builder, Trainer, Model Store,
Predictor) are modelled from the specification; the frontend handlers
(`parseCloses`, `handlePredict`, `handlePredictFromTicker`) are embedded
from the TypeScript source.

Real numbers of the program are modelled as exact rationals (ℚ).
-/

namespace MLFinance

/-- Modelled from the spec: the error taxonomy of §7 —
`InsufficientDataError`, `DegenerateDatasetError`, `DataUnavailableError`,
`SchemaMismatchError` — plus a persistence failure used by the
"simulated persistence failure" testable property of §8. -/
inductive MLError where
  | insufficientDataError
  | degenerateDatasetError
  | dataUnavailableError
  | schemaMismatchError
  | persistenceError
  deriving DecidableEq, Repr

/-- Modelled from the spec: the FeatureVector data model (§3) — a
fixed-order tuple of 5 named features.  `volatility_10d` is specified as
the sample standard deviation of the last 10 daily returns; in exact
rational arithmetic we carry its square (the sample variance) under the
field name `volatility_10d_sq`; the schema name exposed for it is still
`volatility_10d`.  Every component is a rational, hence finite. -/
structure FeatureVector where
  mean_return_1d : ℚ
  mean_return_3d : ℚ
  mean_return_5d : ℚ
  mean_return_10d : ℚ
  volatility_10d_sq : ℚ
  deriving DecidableEq, Repr

/-- The fixed ordered feature-name list (spec §3): identical across
training and prediction and exposed to the presentation layer. -/
def FEATURE_NAMES : List String :=
  ["mean_return_1d", "mean_return_3d", "mean_return_5d",
   "mean_return_10d", "volatility_10d"]

/-- Daily simple returns of a close series: `close[i]/close[i-1] - 1`
for each consecutive pair, in chronological order (spec §4.1). -/
def returnsOf (closes : List ℚ) : List ℚ :=
  (closes.zip (closes.drop 1)).map (fun p => p.2 / p.1 - 1)

/-- The last `k` elements of a list. -/
def lastN (k : ℕ) (l : List ℚ) : List ℚ :=
  l.drop (l.length - k)

/-- Modelled from the spec: `mean_return_kd` (§4.1) — the arithmetic mean
of the most recent `k` daily simple returns. -/
def meanReturn (k : ℕ) (closes : List ℚ) : ℚ :=
  (lastN k (returnsOf closes)).sum / (k : ℚ)

/-- Modelled from the spec: the square of `volatility_10d` (§4.1) — the
sample variance of the last 10 daily simple returns. -/
def sampleVarLast10 (closes : List ℚ) : ℚ :=
  let rs := lastN 10 (returnsOf closes)
  let m := rs.sum / (rs.length : ℚ)
  (rs.map (fun r => (r - m) ^ 2)).sum / ((rs.length : ℚ) - 1)

/-- The arithmetic core of the Feature Extractor: the 5 feature values of
a close window (spec §4.1). -/
def extractCore (closes : List ℚ) : FeatureVector :=
  { mean_return_1d := meanReturn 1 closes
    mean_return_3d := meanReturn 3 closes
    mean_return_5d := meanReturn 5 closes
    mean_return_10d := meanReturn 10 closes
    volatility_10d_sq := sampleVarLast10 closes }

/-- Modelled from the spec: the Feature Extractor (§4.1).  Fails with
`InsufficientDataError` when fewer than 11 closes are supplied or when any
close is non-positive (non-finite closes cannot arise in ℚ). -/
def extract (closes : List ℚ) : Except MLError FeatureVector :=
  if closes.length < 11 then .error .insufficientDataError
  else if closes.any (fun c => c ≤ 0) then .error .insufficientDataError
  else .ok (extractCore closes)

/-- Modelled from the spec: a LabeledExample (§3) — a feature vector with
a binary label, 1 when the next day's close exceeds the current close. -/
structure LabeledExample where
  features : FeatureVector
  label : ℕ
  deriving DecidableEq, Repr

/-- Modelled from the spec: the Label Builder (§4.2).  For each index `i`
with a trailing 11-close window and a subsequent close (`i` from 10 to
`N-2`), extracts a FeatureVector from `closes[i-10..i]` and labels it by
comparing `closes[i+1]` with `closes[i]`, preserving chronological order.
Fails with `InsufficientDataError` when fewer than 12 closes are
available; its contract takes plain reals, so no positivity check is
re-run here (§4.2 lists only `InsufficientDataError`). -/
def build_examples (closes : List ℚ) : Except MLError (List LabeledExample) :=
  if closes.length < 12 then .error .insufficientDataError
  else .ok <| (List.range (closes.length - 11)).map fun j =>
    { features := extractCore ((closes.drop j).take 11)
      label := if closes.getD (10 + j) 0 < closes.getD (11 + j) 0 then 1 else 0 }

/-- Modelled from the spec: the TrainedModel data model (§3) — an opaque
classifier artifact with metadata (feature schema, number of training
examples).  The classifier itself is represented by the calibrated
probability it emits for the "up" class; the spec leaves the Trainer's
hyperparameters open (§9), so the model carries the fitted probability
as a single rational. -/
structure TrainedModel where
  schema : List String
  numExamples : ℕ
  probUp : ℚ
  deriving DecidableEq, Repr

/-- Modelled from the spec: the Trainer (§4.3).  Fails with
`InsufficientDataError` on an empty example sequence; under the
degenerate-input policy chosen here it fails with
`DegenerateDatasetError` when all labels are identical (the spec offers
this as one of the two admissible policies).  Otherwise it fits a
classifier whose up-probability is the empirical base rate of label 1. -/
def train (examples : List LabeledExample) : Except MLError TrainedModel :=
  if examples.length = 0 then .error .insufficientDataError
  else if examples.all (fun e => e.label = 1) ∨ examples.all (fun e => e.label = 0) then
    .error .degenerateDatasetError
  else
    .ok { schema := FEATURE_NAMES
          numExamples := examples.length
          probUp := ((examples.filter (fun e => e.label = 1)).length : ℚ) /
                    (examples.length : ℚ) }

/-- Modelled from the spec: the prediction result (§4.5) —
`{direction, prob_up, prob_down}`. -/
structure Prediction where
  direction : String
  prob_up : ℚ
  prob_down : ℚ
  deriving DecidableEq, Repr

/-- Modelled from the spec: the Predictor (§4.5).  Runs the Feature
Extractor on `closes` (propagating `InsufficientDataError`), fails with
`SchemaMismatchError` when the model's schema differs from the
extractor's, and otherwise returns the model's calibrated probabilities
with `direction = "up"` iff `prob_up ≥ 0.5` (tie-break favors "up"). -/
def predict (model : TrainedModel) (closes : List ℚ) : Except MLError Prediction :=
  match extract closes with
  | .error e => .error e
  | .ok _ =>
    if model.schema ≠ FEATURE_NAMES then .error .schemaMismatchError
    else .ok { direction := if (1 : ℚ) / 2 ≤ model.probUp then "up" else "down"
               prob_up := model.probUp
               prob_down := 1 - model.probUp }

/-- Ticker-keyed association lookup used by the Model Store. -/
def lookupT (t : String) : List (String × TrainedModel) → Option TrainedModel
  | [] => none
  | (k, m) :: rest => if t = k then some m else lookupT t rest

/-- Modelled from the spec: the Model Store's state (§3, §4.4) — the
in-memory ticker-keyed cache and the durable persisted store, each a
ticker → TrainedModel registry. -/
structure StoreState where
  cache : List (String × TrainedModel)
  disk : List (String × TrainedModel)
  deriving DecidableEq, Repr

/-- Outcome of one `get_or_train` call: the returned model or error, the
store state after the call, and effect counters (provider invocations and
durable-storage load attempts) recording the I/O the call performed. -/
structure GetOrTrainResult where
  result : Except MLError TrainedModel
  state : StoreState
  providerCalls : ℕ
  diskLoads : ℕ
  deriving Repr

/-- Modelled from the spec: `get_or_train` (§4.4).
1. cache hit → return immediately (no I/O, no retraining);
2. cache miss → try the persisted model, populate the cache on success;
3. full miss → invoke the closes provider, run Label Builder + Trainer,
   persist (which may fail) and cache the result.
No failed attempt creates a cache entry or a persisted artifact. -/
def get_or_train (ticker : String) (provider : String → Except MLError (List ℚ))
    (saveOk : Bool) (s : StoreState) : GetOrTrainResult :=
  match lookupT ticker s.cache with
  | some m => ⟨.ok m, s, 0, 0⟩
  | none =>
    match lookupT ticker s.disk with
    | some m => ⟨.ok m, { s with cache := (ticker, m) :: s.cache }, 0, 1⟩
    | none =>
      match provider ticker with
      | .error e => ⟨.error e, s, 1, 1⟩
      | .ok closes =>
        match build_examples closes with
        | .error e => ⟨.error e, s, 1, 1⟩
        | .ok exs =>
          match train exs with
          | .error e => ⟨.error e, s, 1, 1⟩
          | .ok m =>
            if saveOk then
              ⟨.ok m, ⟨(ticker, m) :: s.cache, (ticker, m) :: s.disk⟩, 1, 1⟩
            else ⟨.error .persistenceError, s, 1, 1⟩

/-- Modelled from the spec: the predictor metadata the core exposes to
the presentation layer (§6) — the feature-schema name list in stable
documented order (rendered by the frontend's `features_expected`). -/
structure PredictorInfo where
  features_expected : List String
  deriving DecidableEq, Repr

/-- Modelled from the spec: the `/predict-info` payload — the same
feature-name constant on every request. -/
def predictorInfo : PredictorInfo :=
  { features_expected := FEATURE_NAMES }

/-! ## Frontend embeddings (from `src/frontend/src/App.tsx`)

Strings are modelled as lists of characters; the ASCII whitespace
characters stand in for the JavaScript `\s` class. -/

/-- The ASCII whitespace characters matched by JavaScript `\s` (and
removed by `String.prototype.trim`). -/
def isJsWhitespace (c : Char) : Bool :=
  c = ' ' ∨ c = '\t' ∨ c = '\n' ∨ c = '\r' ∨ c = '\x0b' ∨ c = '\x0c'

/-- A character the frontend's split regex `[\s,]+` matches. -/
def isSepChar (c : Char) : Bool :=
  isJsWhitespace c ∨ c = ','

/-- `raw.split(/[\s,]+/)`: splits on maximal runs of separator
characters; a leading or trailing run yields an empty token, and the
empty string yields the single empty token, as in JavaScript. -/
def splitAux (lastSep : Bool) (cur : List Char) : List Char → List (List Char)
  | [] => [cur.reverse]
  | c :: rest =>
    if isSepChar c then
      if lastSep then splitAux true [] rest
      else cur.reverse :: splitAux true [] rest
    else splitAux false (c :: cur) rest

/-- Token list of the closes textarea input under `split(/[\s,]+/)`. -/
def splitTokens (s : List Char) : List (List Char) :=
  splitAux false [] s

/-- A JavaScript number as `parseFloat` can produce it: a finite value
(an exact rational here), `NaN`, or a signed infinity. -/
inductive JsVal where
  | num (q : ℚ)
  | nan
  | posInf
  | negInf
  deriving DecidableEq, Repr

/-- `Number.isFinite`: true exactly on finite numbers. -/
def JsVal.isFinite : JsVal → Bool
  | .num _ => true
  | _ => false

/-- The rational payload of a finite JavaScript number (0 otherwise). -/
def JsVal.toQ : JsVal → ℚ
  | .num q => q
  | _ => 0

/-- Numeric value of a digit string. -/
def digitsToNat (ds : List Char) : ℕ :=
  ds.foldl (fun n c => 10 * n + (c.toNat - '0'.toNat)) 0

/-- `Number.parseFloat` on one token: skip leading whitespace, read an
optional sign, then either `Infinity` or the longest decimal-literal
prefix `digits [. digits] [(e|E) [sign] digits]` (also `.digits`);
`NaN` when no digits match.  Values are exact rationals. -/
def jsParseFloat (token : List Char) : JsVal :=
  let cs := token.dropWhile isJsWhitespace
  let sign : ℚ := if cs.head? = some '-' then -1 else 1
  let cs := if cs.head? = some '-' ∨ cs.head? = some '+' then cs.drop 1 else cs
  match cs with
  | 'I' :: 'n' :: 'f' :: 'i' :: 'n' :: 'i' :: 't' :: 'y' :: _ =>
    if sign = 1 then .posInf else .negInf
  | _ =>
    let intDs := cs.takeWhile Char.isDigit
    let cs1 := cs.dropWhile Char.isDigit
    let fracDs := if cs1.head? = some '.' then (cs1.drop 1).takeWhile Char.isDigit else []
    let cs2 := if cs1.head? = some '.' then (cs1.drop 1).dropWhile Char.isDigit else cs1
    if intDs.length = 0 ∧ fracDs.length = 0 then .nan
    else
      let mant : ℚ := (digitsToNat intDs : ℚ) +
        (digitsToNat fracDs : ℚ) / (10 : ℚ) ^ fracDs.length
      let expPart : ℚ :=
        match cs2 with
        | e :: r =>
          if e = 'e' ∨ e = 'E' then
            let negExp : Bool := r.head? = some '-'
            let r1 := if r.head? = some '-' ∨ r.head? = some '+' then r.drop 1 else r
            let eds := r1.takeWhile Char.isDigit
            if eds.length = 0 then 1
            else if negExp then 1 / (10 : ℚ) ^ digitsToNat eds
            else (10 : ℚ) ^ digitsToNat eds
          else 1
        | [] => 1
      .num (sign * mant * expPart)

/-- `parseCloses` from `src/frontend/src/App.tsx`:
`raw.split(/[\s,]+/).map(parseFloat).filter(Number.isFinite)` — the
tokens' parses with the non-finite ones removed. -/
def parseCloses (raw : List Char) : List ℚ :=
  (((splitTokens raw).map jsParseFloat).filter JsVal.isFinite).map JsVal.toQ

/-- What the closes-window submit handler does: reject with a user-facing
message, or issue a network request with a JSON payload of closes. -/
inductive PredictAction where
  | rejected (msg : String)
  | request (closes : List ℚ)
  deriving DecidableEq, Repr

/-- `handlePredict` from `src/frontend/src/App.tsx`: parse the closes
input; with fewer than 11 values set an error and return without a
request, otherwise POST the parsed closes to `/predict-direction`. -/
def handlePredict (raw : List Char) : PredictAction :=
  let closes := parseCloses raw
  if closes.length < 11 then
    .rejected "Please provide at least 11 closing prices (oldest to newest)."
  else .request closes

/-- `String.prototype.trim`: strip whitespace from both ends. -/
def jsTrim (s : List Char) : List Char :=
  (s.dropWhile isJsWhitespace).rdropWhile isJsWhitespace

/-- What the ticker submit handler does: reject with a user-facing
message, or issue a network request whose payload is the ticker string. -/
inductive TickerAction where
  | rejected (msg : String)
  | request (ticker : List Char)
  deriving DecidableEq, Repr

/-- `handlePredictFromTicker` from `src/frontend/src/App.tsx` (same code
in the README copy): trim the ticker input; when empty set an error and
return without a request, otherwise POST `{ ticker }` with the trimmed
string to `/predict-direction-from-ticker`. -/
def handlePredictFromTicker (raw : List Char) : TickerAction :=
  let ticker := jsTrim raw
  if ticker = [] then
    .rejected "Please enter a ticker symbol (e.g. AAPL)."
  else .request ticker

/-! ## Helper lemmas -/

/-- On a valid input (length ≥ 11, all closes positive) the Feature
Extractor succeeds and returns the arithmetic core's feature vector. -/
theorem extract_ok_of_valid (closes : List ℚ) (h11 : 11 ≤ closes.length)
    (hpos : ∀ c ∈ closes, 0 < c) : extract closes = .ok (extractCore closes) := by
  have hlt : ¬ closes.length < 11 := by omega
  have hany : closes.any (fun c => decide (c ≤ 0)) = false := by
    simp only [List.any_eq_false, decide_eq_true_eq]
    intro x hx
    exact not_le.mpr (hpos x hx)
  simp only [extract, hlt, if_false, hany, Bool.false_eq_true, if_neg]

/-- `getD` agrees with `get` on in-range indices. -/
theorem getD_eq_get_of_lt (l : List ℚ) (i : ℕ) (h : i < l.length) :
    l.getD i 0 = l.get ⟨i, h⟩ := by
  simp [List.getD_eq_getElem?_getD, List.getElem?_eq_getElem h]

/-! ## Claims -/

/-- Claim C2: for every input closes sequence of length strictly less
than 11, both `extract` and `predict` fail with `InsufficientDataError`
and produce no result. -/
theorem claim_C2_short_closes_insufficient (m : TrainedModel) (closes : List ℚ)
    (h : closes.length < 11) :
    extract closes = .error .insufficientDataError ∧
      predict m closes = .error .insufficientDataError := by
  have he : extract closes = .error .insufficientDataError := by
    simp only [extract, if_pos h]
  exact ⟨he, by simp only [predict, he]⟩

/-- Witness for C2 at a concrete 2-element closes list. -/
theorem claim_C2_witness :
    ([(100 : ℚ), 101].length < 11) ∧
      (extract [(100 : ℚ), 101] = .error .insufficientDataError ∧
        predict ⟨FEATURE_NAMES, 2, 1 / 2⟩ [(100 : ℚ), 101] =
          .error .insufficientDataError) :=
  ⟨by decide, claim_C2_short_closes_insufficient ⟨FEATURE_NAMES, 2, 1 / 2⟩
    [(100 : ℚ), 101] (by decide)⟩

/-- Claim C7: on every valid closes sequence (length ≥ 11, positive
closes) `extract` returns a FeatureVector — whose 5 components are exact
rationals, hence finite — and `mean_return_1d` computed on the closes
`[100, 101]` equals exactly `0.01`. -/
theorem claim_C7_extract_finite_and_mean_return :
    (∀ closes : List ℚ, 11 ≤ closes.length → (∀ c ∈ closes, 0 < c) →
      ∃ fv, extract closes = .ok fv) ∧
      meanReturn 1 [100, 101] = 1 / 100 :=
  ⟨fun closes h11 hpos => ⟨extractCore closes, extract_ok_of_valid closes h11 hpos⟩,
    by norm_num [meanReturn, returnsOf, lastN]⟩

/-- Witness for C7 at the spec's 11-value end-to-end closes window. -/
theorem claim_C7_witness :
    (11 ≤ ([100, 101, 100, 102, 103, 104, 103, 105, 106, 107, 108] : List ℚ).length) ∧
      ∃ fv, extract ([100, 101, 100, 102, 103, 104, 103, 105, 106, 107, 108] : List ℚ) =
        .ok fv :=
  ⟨by decide, claim_C7_extract_finite_and_mean_return.1
    ([100, 101, 100, 102, 103, 104, 103, 105, 106, 107, 108] : List ℚ)
    (by decide) (by decide)⟩

/-- Claim C3: on every strictly increasing close series of length
N ≥ 12, `build_examples` returns exactly N−11 labeled examples in
chronological order (the j-th example's features come from the j-th
trailing 11-close window), every label equal to 1; for N < 12 it fails
with `InsufficientDataError`. -/
theorem claim_C3_build_examples_increasing (closes : List ℚ) :
    (12 ≤ closes.length → closes.Chain' (· < ·) →
      ∃ exs, build_examples closes = .ok exs ∧ exs.length = closes.length - 11 ∧
        ∀ j : Fin exs.length, (exs.get j).label = 1 ∧
          (exs.get j).features = extractCore ((closes.drop (j : ℕ)).take 11)) ∧
    (closes.length < 12 → build_examples closes = .error .insufficientDataError) := by
  constructor
  · intro h12 hchain
    have hlt : ¬ closes.length < 12 := by omega
    refine ⟨(List.range (closes.length - 11)).map (fun j =>
      { features := extractCore ((closes.drop j).take 11)
        label := if closes.getD (10 + j) 0 < closes.getD (11 + j) 0 then 1 else 0 }),
      by simp only [build_examples, hlt, if_false], by simp, ?_⟩
    intro j
    obtain ⟨j, hj⟩ := j
    have hjlen : j < closes.length - 11 := by simpa using hj
    have h10 : 10 + j < closes.length := by omega
    have h11 : 11 + j < closes.length := by omega
    have hstep := List.chain'_iff_get.mp hchain (10 + j) (by omega)
    constructor
    · simp only [List.get_eq_getElem, List.getElem_map, List.getElem_range]
      rw [getD_eq_get_of_lt closes (10 + j) h10, getD_eq_get_of_lt closes (11 + j) h11]
      rw [if_pos]
      have heq : (⟨11 + j, h11⟩ : Fin closes.length) = ⟨10 + j + 1, by omega⟩ := by
        simp only [Fin.mk.injEq]; omega
      rw [heq]
      exact hstep
    · simp [List.get_eq_getElem, List.getElem_map, List.getElem_range]
  · intro h
    simp only [build_examples, if_pos h]

/-- Witness for C3 at a concrete strictly increasing 13-close series. -/
theorem claim_C3_witness :
    (12 ≤ ([1, 2, 3, 4, 5, 6, 7, 8, 9, 10, 11, 12, 13] : List ℚ).length) ∧
      ∃ exs, build_examples ([1, 2, 3, 4, 5, 6, 7, 8, 9, 10, 11, 12, 13] : List ℚ) =
          .ok exs ∧
        exs.length = ([1, 2, 3, 4, 5, 6, 7, 8, 9, 10, 11, 12, 13] : List ℚ).length - 11 ∧
        ∀ j : Fin exs.length, (exs.get j).label = 1 ∧
          (exs.get j).features =
            extractCore ((([1, 2, 3, 4, 5, 6, 7, 8, 9, 10, 11, 12, 13] : List ℚ).drop
              (j : ℕ)).take 11) :=
  ⟨by decide,
    (claim_C3_build_examples_increasing
      ([1, 2, 3, 4, 5, 6, 7, 8, 9, 10, 11, 12, 13] : List ℚ)).1
      (by decide) (by norm_num [List.chain'_cons])⟩

/-- Claim C1: for every trained model and every valid closes sequence of
length ≥ 11, `predict` returns a result whose `prob_up` and `prob_down`
each lie in [0,1], whose `prob_up + prob_down` equals 1 (exactly, hence
within 1e-6), and whose `direction` equals "up" iff `prob_up ≥ 0.5`
(ties favoring "up"). -/
theorem claim_C1_predict_postconditions (exs : List LabeledExample) (m : TrainedModel)
    (closes : List ℚ) (htrain : train exs = .ok m) (hlen : 11 ≤ closes.length)
    (hpos : ∀ c ∈ closes, 0 < c) :
    ∃ p, predict m closes = .ok p ∧
      0 ≤ p.prob_up ∧ p.prob_up ≤ 1 ∧ 0 ≤ p.prob_down ∧ p.prob_down ≤ 1 ∧
      p.prob_up + p.prob_down = 1 ∧ (p.direction = "up" ↔ (1 : ℚ) / 2 ≤ p.prob_up) := by
  simp only [train] at htrain
  split_ifs at htrain with h1 h2
  simp only [Except.ok.injEq] at htrain
  subst htrain
  have hn : (0 : ℚ) < (exs.length : ℚ) := by
    have : 0 < exs.length := Nat.pos_of_ne_zero h1
    exact_mod_cast this
  set q : ℚ := ((exs.filter (fun e => e.label = 1)).length : ℚ) / (exs.length : ℚ) with hq
  have hq0 : 0 ≤ q := by positivity
  have hq1 : q ≤ 1 := by
    rw [hq, div_le_one hn]
    exact_mod_cast List.length_filter_le _ _
  have hpred : predict { schema := FEATURE_NAMES, numExamples := exs.length, probUp := q }
      closes = .ok { direction := if (1 : ℚ) / 2 ≤ q then "up" else "down",
                     prob_up := q, prob_down := 1 - q } := by
    rw [predict, extract_ok_of_valid closes hlen hpos]
    simp
  refine ⟨_, hpred, hq0, hq1, by linarith, by linarith, by ring, ?_⟩
  by_cases hhalf : (1 : ℚ) / 2 ≤ q
  · simp [hhalf]
  · simp only [if_neg hhalf]
    constructor
    · intro hcontra
      exact absurd hcontra (by decide)
    · intro hcontra
      exact absurd hcontra hhalf

/-- Witness for C1: a model trained on a two-example dataset, scored on
the spec's 11-value closes window. -/
theorem claim_C1_witness :
    train [⟨⟨0, 0, 0, 0, 0⟩, 1⟩, ⟨⟨0, 0, 0, 0, 0⟩, 0⟩] =
        .ok ⟨FEATURE_NAMES, 2, 1 / 2⟩ ∧
      ∃ p, predict ⟨FEATURE_NAMES, 2, 1 / 2⟩
          ([100, 101, 100, 102, 103, 104, 103, 105, 106, 107, 108] : List ℚ) = .ok p ∧
        0 ≤ p.prob_up ∧ p.prob_up ≤ 1 ∧ 0 ≤ p.prob_down ∧ p.prob_down ≤ 1 ∧
        p.prob_up + p.prob_down = 1 ∧ (p.direction = "up" ↔ (1 : ℚ) / 2 ≤ p.prob_up) := by
  have ht : train [(⟨⟨0, 0, 0, 0, 0⟩, 1⟩ : LabeledExample), ⟨⟨0, 0, 0, 0, 0⟩, 0⟩] =
      .ok ⟨FEATURE_NAMES, 2, 1 / 2⟩ := by
    norm_num [train, List.filter]
  exact ⟨ht, claim_C1_predict_postconditions _ _ _ ht (by decide) (by decide)⟩

/-- After a successful `get_or_train`, the returned model sits in the
in-memory cache under its ticker. -/
theorem lookupT_state_of_ok (ticker : String) (provider : String → Except MLError (List ℚ))
    (saveOk : Bool) (s : StoreState) (m : TrainedModel)
    (h : (get_or_train ticker provider saveOk s).result = .ok m) :
    lookupT ticker (get_or_train ticker provider saveOk s).state.cache = some m := by
  cases hc : lookupT ticker s.cache with
  | some m' =>
    simp only [get_or_train, hc] at h ⊢
    simp only [Except.ok.injEq] at h
    subst h
    rfl
  | none =>
    cases hd : lookupT ticker s.disk with
    | some m' =>
      simp only [get_or_train, hc, hd] at h ⊢
      simp only [Except.ok.injEq] at h
      simp [lookupT, h]
    | none =>
      cases hp : provider ticker with
      | error e =>
        simp only [get_or_train, hc, hd, hp] at h
        exact Except.noConfusion h
      | ok closes =>
        cases hb : build_examples closes with
        | error e =>
          simp only [get_or_train, hc, hd, hp, hb] at h
          exact Except.noConfusion h
        | ok exs =>
          cases ht : train exs with
          | error e =>
            simp only [get_or_train, hc, hd, hp, hb, ht] at h
            exact Except.noConfusion h
          | ok m' =>
            cases saveOk with
            | true =>
              simp only [get_or_train, hc, hd, hp, hb, ht] at h ⊢
              simp only [if_true, Except.ok.injEq] at h
              simp [lookupT, h]
            | false =>
              simp only [get_or_train, hc, hd, hp, hb, ht] at h
              simp at h

/-- A cache hit returns immediately: no state change, no provider call,
no durable-storage access. -/
theorem get_or_train_cache_hit (ticker : String)
    (provider : String → Except MLError (List ℚ)) (saveOk : Bool) (s : StoreState)
    (m : TrainedModel) (hc : lookupT ticker s.cache = some m) :
    get_or_train ticker provider saveOk s = ⟨.ok m, s, 0, 0⟩ := by
  simp only [get_or_train, hc]

/-- A single `get_or_train` call invokes the closes provider at most
once. -/
theorem get_or_train_providerCalls_le_one (ticker : String)
    (provider : String → Except MLError (List ℚ)) (saveOk : Bool) (s : StoreState) :
    (get_or_train ticker provider saveOk s).providerCalls ≤ 1 := by
  cases hc : lookupT ticker s.cache with
  | some m' => simp [get_or_train, hc]
  | none =>
    cases hd : lookupT ticker s.disk with
    | some m' => simp [get_or_train, hc, hd]
    | none =>
      cases hp : provider ticker with
      | error e => simp [get_or_train, hc, hd, hp]
      | ok closes =>
        cases hb : build_examples closes with
        | error e => simp [get_or_train, hc, hd, hp, hb]
        | ok exs =>
          cases ht : train exs with
          | error e => simp [get_or_train, hc, hd, hp, hb, ht]
          | ok m' =>
            cases saveOk <;> simp [get_or_train, hc, hd, hp, hb, ht]

/-- On a full miss the provider is invoked exactly once. -/
theorem get_or_train_full_miss_provider_once (ticker : String)
    (provider : String → Except MLError (List ℚ)) (saveOk : Bool) (s : StoreState)
    (hc : lookupT ticker s.cache = none) (hd : lookupT ticker s.disk = none) :
    (get_or_train ticker provider saveOk s).providerCalls = 1 := by
  cases hp : provider ticker with
  | error e' => simp [get_or_train, hc, hd, hp]
  | ok closes =>
    cases hb : build_examples closes with
    | error e' => simp [get_or_train, hc, hd, hp, hb]
    | ok exs =>
      cases ht : train exs with
      | error e' => simp [get_or_train, hc, hd, hp, hb, ht]
      | ok m' => cases saveOk <;> simp [get_or_train, hc, hd, hp, hb, ht]

/-- Claim C4: after a successful `get_or_train(ticker, provider)`, a
second call in sequence returns the identical cached TrainedModel with
unchanged state, zero provider calls and zero durable-storage loads (a
pure cache hit), and the provider was invoked at most once across both
calls. -/
theorem claim_C4_get_or_train_idempotent (ticker : String)
    (provider : String → Except MLError (List ℚ)) (saveOk : Bool) (s : StoreState)
    (m : TrainedModel) (h : (get_or_train ticker provider saveOk s).result = .ok m) :
    get_or_train ticker provider saveOk (get_or_train ticker provider saveOk s).state =
        ⟨.ok m, (get_or_train ticker provider saveOk s).state, 0, 0⟩ ∧
      (get_or_train ticker provider saveOk s).providerCalls +
        (get_or_train ticker provider saveOk
          (get_or_train ticker provider saveOk s).state).providerCalls ≤ 1 := by
  have hhit := get_or_train_cache_hit ticker provider saveOk _ m
    (lookupT_state_of_ok ticker provider saveOk s m h)
  refine ⟨hhit, ?_⟩
  rw [hhit]
  simpa using get_or_train_providerCalls_le_one ticker provider saveOk s

/-- Witness for C4: a store whose cache already holds a model for the
ticker; the second call is a pure cache hit. -/
theorem claim_C4_witness :
    (get_or_train "AAPL" (fun _ => .error .dataUnavailableError) true
          ⟨[("AAPL", ⟨FEATURE_NAMES, 2, 1 / 2⟩)], []⟩).result =
        .ok ⟨FEATURE_NAMES, 2, 1 / 2⟩ ∧
      get_or_train "AAPL" (fun _ => .error .dataUnavailableError) true
          (get_or_train "AAPL" (fun _ => .error .dataUnavailableError) true
            ⟨[("AAPL", ⟨FEATURE_NAMES, 2, 1 / 2⟩)], []⟩).state =
        ⟨.ok ⟨FEATURE_NAMES, 2, 1 / 2⟩,
          (get_or_train "AAPL" (fun _ => .error .dataUnavailableError) true
            ⟨[("AAPL", ⟨FEATURE_NAMES, 2, 1 / 2⟩)], []⟩).state, 0, 0⟩ :=
  ⟨rfl, (claim_C4_get_or_train_idempotent "AAPL" (fun _ => .error .dataUnavailableError)
    true ⟨[("AAPL", ⟨FEATURE_NAMES, 2, 1 / 2⟩)], []⟩ ⟨FEATURE_NAMES, 2, 1 / 2⟩ rfl).1⟩

/-- Claim C6: when a `get_or_train` training attempt fails on an
untrained ticker (provider failure, insufficient data, degenerate
dataset, or persistence failure), no cache entry or persisted artifact
is created (the state is unchanged), and the next call for the same
ticker repeats the whole computation — it invokes the provider again
rather than serving anything cached. -/
theorem claim_C6_failed_training_not_cached (ticker : String)
    (provider : String → Except MLError (List ℚ)) (saveOk : Bool) (s : StoreState)
    (e : MLError) (hc : lookupT ticker s.cache = none) (hd : lookupT ticker s.disk = none)
    (h : (get_or_train ticker provider saveOk s).result = .error e) :
    (get_or_train ticker provider saveOk s).state = s ∧
      get_or_train ticker provider saveOk (get_or_train ticker provider saveOk s).state =
        get_or_train ticker provider saveOk s ∧
      (get_or_train ticker provider saveOk
        (get_or_train ticker provider saveOk s).state).providerCalls = 1 := by
  have hstate : (get_or_train ticker provider saveOk s).state = s := by
    cases hp : provider ticker with
    | error e' => simp [get_or_train, hc, hd, hp]
    | ok closes =>
      cases hb : build_examples closes with
      | error e' => simp [get_or_train, hc, hd, hp, hb]
      | ok exs =>
        cases ht : train exs with
        | error e' => simp [get_or_train, hc, hd, hp, hb, ht]
        | ok m' =>
          cases saveOk with
          | true =>
            simp only [get_or_train, hc, hd, hp, hb, ht, if_true] at h
            exact Except.noConfusion h
          | false => simp [get_or_train, hc, hd, hp, hb, ht]
  refine ⟨hstate, by rw [hstate], ?_⟩
  rw [hstate]
  exact get_or_train_full_miss_provider_once ticker provider saveOk s hc hd

/-- Witness for C6: an empty store and a provider that fails; the failed
attempt leaves the store empty. -/
theorem claim_C6_witness :
    (get_or_train "MSFT" (fun _ => .error .dataUnavailableError) true
          ⟨[], []⟩).result = .error .dataUnavailableError ∧
      (get_or_train "MSFT" (fun _ => .error .dataUnavailableError) true
        ⟨[], []⟩).state = (⟨[], []⟩ : StoreState) :=
  ⟨rfl, (claim_C6_failed_training_not_cached "MSFT"
    (fun _ => .error .dataUnavailableError) true ⟨[], []⟩ .dataUnavailableError
    rfl rfl rfl).1⟩

/-- Claim C8: the feature schema is the fixed ordered list of 5 names
(mean_return_1d, mean_return_3d, mean_return_5d, mean_return_10d,
volatility_10d); every trained model carries exactly this schema, every
successful prediction scores a model with exactly this schema (so the
schema is identical across training and prediction), and the core's
predictor-info exposure hands the presentation layer this same list. -/
theorem claim_C8_feature_schema_stable :
    FEATURE_NAMES = ["mean_return_1d", "mean_return_3d", "mean_return_5d",
        "mean_return_10d", "volatility_10d"] ∧
      FEATURE_NAMES.length = 5 ∧
      predictorInfo.features_expected = FEATURE_NAMES ∧
      (∀ (exs : List LabeledExample) (m : TrainedModel),
        train exs = .ok m → m.schema = FEATURE_NAMES) ∧
      (∀ (m : TrainedModel) (closes : List ℚ) (p : Prediction),
        predict m closes = .ok p → m.schema = FEATURE_NAMES) := by
  refine ⟨rfl, rfl, rfl, ?_, ?_⟩
  · intro exs m h
    simp only [train] at h
    split_ifs at h
    simp only [Except.ok.injEq] at h
    subst h
    rfl
  · intro m closes p h
    simp only [predict] at h
    cases hx : extract closes with
    | error e => rw [hx] at h; exact Except.noConfusion h
    | ok fv =>
      rw [hx] at h
      by_cases hs : m.schema = FEATURE_NAMES
      · exact hs
      · rw [if_pos (by simpa using hs)] at h
        exact Except.noConfusion h

/-- Witness for C8: a concretely trained model carries the documented
schema. -/
theorem claim_C8_witness :
    train [⟨⟨1, 0, 0, 0, 0⟩, 1⟩, ⟨⟨1, 0, 0, 0, 0⟩, 0⟩] =
        .ok ⟨FEATURE_NAMES, 2, 1 / 2⟩ ∧
      (⟨FEATURE_NAMES, 2, 1 / 2⟩ : TrainedModel).schema = FEATURE_NAMES := by
  have ht : train [(⟨⟨1, 0, 0, 0, 0⟩, 1⟩ : LabeledExample), ⟨⟨1, 0, 0, 0, 0⟩, 0⟩] =
      .ok ⟨FEATURE_NAMES, 2, 1 / 2⟩ := by
    norm_num [train, List.filter]
  exact ⟨ht, claim_C8_feature_schema_stable.2.2.2.1 _ _ ht⟩

/-- A trimmed string is empty exactly when every character of the
original string is whitespace. -/
theorem jsTrim_eq_nil_iff (raw : List Char) :
    jsTrim raw = [] ↔ ∀ c ∈ raw, isJsWhitespace c := by
  unfold jsTrim
  rw [List.rdropWhile_eq_nil_iff]
  constructor
  · intro h c hc
    have hsplit := List.takeWhile_append_dropWhile (p := isJsWhitespace) (l := raw)
    rw [← hsplit] at hc
    rcases List.mem_append.mp hc with h1 | h2
    · exact List.mem_takeWhile_imp h1
    · exact h c h2
  · intro h c hc
    exact h c ((List.dropWhile_sublist _).subset hc)

/-- Claim C9: `parseCloses` returns exactly the finite values parsed
from the whitespace/comma-separated tokens, in order of appearance,
silently discarding tokens whose parse is not finite; `handlePredict`
issues a prediction request iff at least 11 values remain, sending
exactly the parsed closes, and otherwise sets a user-facing error. -/
theorem claim_C9_parseCloses_and_gating (raw : List Char) :
    parseCloses raw =
        ((splitTokens raw).filter (fun t => (jsParseFloat t).isFinite)).map
          (fun t => (jsParseFloat t).toQ) ∧
      ((parseCloses raw).length < 11 → handlePredict raw =
        .rejected "Please provide at least 11 closing prices (oldest to newest).") ∧
      (11 ≤ (parseCloses raw).length → handlePredict raw = .request (parseCloses raw)) := by
  refine ⟨?_, ?_, ?_⟩
  · unfold parseCloses
    rw [List.filter_map, List.map_map]
    rfl
  · intro h
    simp [handlePredict, h]
  · intro h
    have : ¬ (parseCloses raw).length < 11 := by omega
    simp [handlePredict, this]

/-- Witness for C9 at the frontend's sample 11-close input string. -/
theorem claim_C9_witness :
    11 ≤ (parseCloses
        "421.1, 422.4, 421.8, 423.6, 424.9, 426.2, 427.1, 428.5, 429.2, 430.4, 431.0".data).length ∧
      handlePredict
          "421.1, 422.4, 421.8, 423.6, 424.9, 426.2, 427.1, 428.5, 429.2, 430.4, 431.0".data =
        .request (parseCloses
          "421.1, 422.4, 421.8, 423.6, 424.9, 426.2, 427.1, 428.5, 429.2, 430.4, 431.0".data) :=
  ⟨by decide, (claim_C9_parseCloses_and_gating _).2.2 (by decide)⟩

/-- Claim C10: a ticker input that is empty after trimming (equivalently,
all whitespace) makes the handler set a user-facing error and issue no
request; any other input is sent with exactly the trimmed ticker as the
payload. -/
theorem claim_C10_ticker_handler (raw : List Char) :
    (jsTrim raw = [] ↔ ∀ c ∈ raw, isJsWhitespace c) ∧
      (jsTrim raw = [] → handlePredictFromTicker raw =
        .rejected "Please enter a ticker symbol (e.g. AAPL).") ∧
      (jsTrim raw ≠ [] → handlePredictFromTicker raw = .request (jsTrim raw)) := by
  refine ⟨jsTrim_eq_nil_iff raw, ?_, ?_⟩
  · intro h
    simp [handlePredictFromTicker, h]
  · intro h
    simp [handlePredictFromTicker, h]

/-- Witness for C10: a padded ticker is sent trimmed; an all-whitespace
input is rejected. -/
theorem claim_C10_witness :
    (jsTrim "  AB ".data ≠ [] ∧
        handlePredictFromTicker "  AB ".data = .request (jsTrim "  AB ".data)) ∧
      (jsTrim "   ".data = [] ∧ handlePredictFromTicker "   ".data =
        .rejected "Please enter a ticker symbol (e.g. AAPL).") :=
  ⟨⟨by decide, (claim_C10_ticker_handler "  AB ".data).2.2 (by decide)⟩,
    ⟨by decide, (claim_C10_ticker_handler "   ".data).2.1 (by decide)⟩⟩

end MLFinance
